import Mathlib

/-!
# Verification of the MapView visible-world renderer

A shallow embedding of `src/client/mapview.cpp` (the `MapView` component of the
otclient tile renderer), together with theorems settling the specification's
claims about it.

The embedding translates the C++ member functions into pure Lean functions over
an explicit `MapState` record; the world/tile store collaborator (`g_map`) is an
explicit `World` record of query functions, as the spec treats it as an external
interface.  Machine integers are modelled as `Int`/`Nat` (no arithmetic in this
file approaches any overflow boundary), C++ truncating division/modulus as
`Int.tdiv`/`Int.tmod`, and C++ `float` quantities (fade opacity, ambient-light
minimum, scale factor) as `ℚ`, which models the intended exact linear
arithmetic of those code paths.

Helper headers of the repository (`const.h`, `position.h`, `size.h`,
`mapview.h`) are not part of the sources; the few definitions needed from them
are modelled from the spec and marked `Modelled from the spec:` in their doc
comments.  Everything else is translated directly from `mapview.cpp`.
-/

namespace Otc

/-- Modelled from the spec: `const.h` is not among the sources.  The spec fixes
the sea-level floor constant at 7 (§8 property 7: "camera at `(100,100,7)`
(above sea level, sea floor = 7)"). -/
def SEA_FLOOR : Int := 7

/-- Modelled from the spec: `const.h` is not among the sources.  `MAX_Z` is the
spec's `MAX_FLOOR`, the top of the valid floor range `[0, MAX_FLOOR]` (§3); the
client's conventional value 15 is used. -/
def MAX_Z : Int := 15

/-- Modelled from the spec: `const.h` is not among the sources.  First
underground floor, just below the sea-level floor. -/
def UNDERGROUND_FLOOR : Int := 8

/-- Modelled from the spec: `const.h` is not among the sources.  The
`UNDERGROUND_RANGE` of §4.2 ("camera.floor − UNDERGROUND_RANGE" /
"camera.floor + UNDERGROUND_RANGE"); the client's conventional value 2. -/
def AWARE_UNDEGROUND_FLOOR_RANGE : Int := 2

/-- `NEAR_VIEW_AREA = 32 * 32` (mapview.cpp line 47). -/
def NEAR_VIEW_AREA : Nat := 32 * 32

/-- `MID_VIEW_AREA = 64 * 64` (mapview.cpp line 48). -/
def MID_VIEW_AREA : Nat := 64 * 64

/-- `FAR_VIEW_AREA = 128 * 128` (mapview.cpp line 49). -/
def FAR_VIEW_AREA : Nat := 128 * 128

/-- `MAX_TILE_DRAWS = NEAR_VIEW_AREA * 7` (mapview.cpp line 50). -/
def MAX_TILE_DRAWS : Nat := NEAR_VIEW_AREA * 7

/-- Modelled from the spec: the `ViewMode` enumeration (`mapview.h` is not
among the sources): a coarse zoom classification `NEAR/MID/FAR/HUGE` in that
order (§2, glossary), encoded by its ordinal. -/
def NEAR_VIEW : Nat := 0

/-- Second view-mode classification (see `NEAR_VIEW`). -/
def MID_VIEW : Nat := 1

/-- Third view-mode classification (see `NEAR_VIEW`). -/
def FAR_VIEW : Nat := 2

/-- Largest view-mode classification (see `NEAR_VIEW`). -/
def HUGE_VIEW : Nat := 3

/-- `stdext::clamp<int>(z, lo, hi)` — modelled from the spec: the `stdext`
helper header is not among the sources; clamping to `[0, MAX_FLOOR]` per
§4.2/§7. -/
def clampInt (v lo hi : Int) : Int :=
  if v < lo then lo else if hi < v then hi else v

/-- World position (integer triple `(x, y, floor)`, §3).  Modelled from the
spec: `position.h` is not among the sources. -/
structure Position where
  x : Int
  y : Int
  z : Int
deriving DecidableEq

/-- Modelled from the spec: the sentinel "invalid position" (§3); the client's
default-constructed position `(65535, 65535, 255)`, whose floor lies outside
`[0, MAX_FLOOR]`. -/
def Position.invalid : Position := ⟨65535, 65535, 255⟩

/-- Modelled from the spec: a position is valid when its floor lies in
`[0, MAX_FLOOR]` (§3) and its horizontal coordinates in the client's
16-bit coordinate range. -/
def Position.isValid (p : Position) : Bool :=
  decide (0 ≤ p.x ∧ p.x ≤ 65535 ∧ 0 ≤ p.y ∧ p.y ≤ 65535 ∧ 0 ≤ p.z ∧ p.z ≤ MAX_Z)

/-- `Position::translated(dx, dy)`: horizontal translation on the same floor.
Modelled from the spec (`position.h` missing). -/
def Position.translated (p : Position) (dx dy : Int) : Position :=
  ⟨p.x + dx, p.y + dy, p.z⟩

/-- `Position::up(n)`: move `n` floors up (toward smaller floor index); fails —
leaving the position unchanged — when the target floor leaves `[0, MAX_FLOOR]`.
Modelled from the spec (`position.h` missing; §4.2 "walk upward floor by
floor"). -/
def Position.upOpt (p : Position) (n : Int) : Option Position :=
  let nz := p.z - n
  if 0 ≤ nz ∧ nz ≤ MAX_Z then some ⟨p.x, p.y, nz⟩ else none

/-- `Position::coveredUp(n)`: the position that geometrically covers `p` from
`n` floors above — the per-floor parallax shift of §4.3 step 5 and the
glossary: `x` and `y` shift by `+n` while the floor decreases by `n`; fails
when the target floor leaves `[0, MAX_FLOOR]`.  Modelled from the spec
(`position.h` missing). -/
def Position.coveredUpOpt (p : Position) (n : Int) : Option Position :=
  let nz := p.z - n
  if 0 ≤ nz ∧ nz ≤ MAX_Z then some ⟨p.x + n, p.y + n, nz⟩ else none

/-- `Position::coveredUp(n)` with the success flag ignored, as
`updateVisibleTilesCache` uses it (mapview.cpp line 404): on failure the
position is left unchanged. -/
def Position.coveredUpBy (p : Position) (n : Int) : Position :=
  match p.coveredUpOpt n with
  | some q => q
  | none => p

/-- A drawable tile as seen by `MapView`: its position plus the boolean
attributes `MapView` queries on it (`tile.h` is not among the sources, so the
attributes are abstract fields; the two `limitsFloorsView` results are stored
for both argument values). -/
structure Tile where
  pos : Position
  isDrawable : Bool
  hasLight : Bool
  hasWideThings : Bool
  hasTallThings : Bool
  hasDisplacement : Bool
  limitsLook : Bool
  limitsNoLook : Bool
deriving DecidableEq

/-- `Tile::limitsFloorsView(isFreeView)` dispatching on the stored results. -/
def Tile.limitsFloorsView (t : Tile) (isFreeView : Bool) : Bool :=
  if isFreeView then t.limitsLook else t.limitsNoLook

/-- Ambient light record `{color, intensity}` (`g_map.getLight()`, §6). -/
structure Light where
  color : Int
  intensity : Int
deriving DecidableEq

/-- The world/tile store collaborator, an external interface (§6): the query
functions `MapView` consumes, as explicit fields. -/
structure World where
  getTile : Position → Option Tile
  isCompletelyCovered : Position → Int → Bool
  isLookPossible : Position → Bool
  light : Light

/-- Integer 2-D size (`size.h` is not among the sources; only the component
fields and comparisons the spec describes are modelled). -/
structure Size where
  w : Int
  h : Int
deriving DecidableEq

/-- `Size::area()`. -/
def Size.area (s : Size) : Int := s.w * s.h

/-- Modelled from the spec: the `visibleDimension < Size(3, 3)` comparison of
`setVisibleDimension` (`size.h` missing).  Per §4.1 width and height "must be
odd and ≥ 3", so a dimension is too small when either component is below 3. -/
def Size.ltSpec (a b : Size) : Prop := a.w < b.w ∨ a.h < b.h

instance (a b : Size) : Decidable (Size.ltSpec a b) := by
  unfold Size.ltSpec; infer_instance

/-- Integer 2-D point. -/
structure Point where
  x : Int
  y : Int
deriving DecidableEq

/-- Per-direction visibility window `{top, right, bottom, left}` in tile units
(§3 ViewPort). -/
structure ViewPort where
  top : Int
  right : Int
  bottom : Int
  left : Int
deriving DecidableEq

/-- The aware-range of the world store (`g_map.getAwareRange()`), an external
collaborator value. -/
structure AwareRange where
  top : Int
  right : Int
  bottom : Int
  left : Int
deriving DecidableEq

/-- Modelled from the spec: facing directions plus the "unbounded/default"
direction (§3); `const.h` is not among the sources. -/
inductive Direction where
  | north
  | east
  | south
  | west
  | northEast
  | southEast
  | southWest
  | northWest
  | invalidDirection
deriving DecidableEq

/-- The `MapView` state: the member variables of `mapview.cpp` that the
verified operations read or write.  The visible-tile cache is the per-floor
map `cache : Int → List Tile` in draw order (§3 VisibleTileCache); rendering
buffers, textures and the spectators list are graphics-backend state outside
this model. -/
structure MapState where
  follow : Bool
  followingCreaturePos : Position
  customCameraPosition : Position
  lastCameraPosition : Position
  lockedFirstVisibleFloor : Int
  cachedFirstVisibleFloor : Int
  cachedLastVisibleFloor : Int
  multifloor : Bool
  autoViewMode : Bool
  viewMode : Nat
  visibleDimension : Size
  drawDimension : Size
  tileSize : Int
  virtualCenterOffset : Point
  visibleCenterOffset : Point
  optimizedSize : Size
  rectDimension : Size
  scaleFactor : ℚ
  minimumAmbientLight : ℚ
  drawViewportEdge : Bool
  floorMin : Int
  floorMax : Int
  cache : Int → List Tile
  mustUpdateVisibleTilesCache : Bool

/-- `MapView::getCameraPosition()` (mapview.cpp lines 785-791): the followed
creature's live position while following, else the fixed camera position. -/
def getCameraPosition (s : MapState) : Position :=
  if s.follow then s.followingCreaturePos else s.customCameraPosition

/-- One iteration step of the occlusion `while` loop of
`calcFirstVisibleFloor` (mapview.cpp lines 731-745), recursing on an explicit
iteration bound: the loop strictly decreases the floor of `upperPos`, which the
loop conditions keep within `[0, MAX_FLOOR]`, so `MAX_Z.toNat + 2` iterations
always suffice. -/
def scanWhile (w : World) (isLookPossible : Bool) :
    Nat → Position → Position → Int → Int
  | 0, _, _, firstFloor => firstFloor
  | fuel + 1, coveredPos, upperPos, firstFloor =>
    match coveredPos.coveredUpOpt 1 with
    | none => firstFloor
    | some cp =>
      match upperPos.upOpt 1 with
      | none => firstFloor
      | some up2 =>
        if firstFloor ≤ up2.z then
          match w.getTile up2 with
          | some tile =>
            if tile.limitsFloorsView (!isLookPossible) then up2.z + 1
            else
              match w.getTile cp with
              | some t2 =>
                if t2.limitsFloorsView isLookPossible then cp.z + 1
                else scanWhile w isLookPossible fuel cp up2 firstFloor
              | none => scanWhile w isLookPossible fuel cp up2 firstFloor
          | none =>
            match w.getTile cp with
            | some t2 =>
              if t2.limitsFloorsView isLookPossible then cp.z + 1
              else scanWhile w isLookPossible fuel cp up2 firstFloor
            | none => scanWhile w isLookPossible fuel cp up2 firstFloor
        else firstFloor

/-- One column of the 3×3 neighborhood scan of `calcFirstVisibleFloor`
(mapview.cpp lines 723-746): eligible columns are the camera's own cell and the
axis-aligned neighbors through which looking is possible. -/
def scanColumn (w : World) (cameraPosition : Position) (ix iy : Int)
    (firstFloor : Int) : Int :=
  let pos := cameraPosition.translated ix iy
  if (ix = 0 ∧ iy = 0) ∨ ((ix.natAbs ≠ iy.natAbs) ∧ w.isLookPossible pos) then
    scanWhile w (w.isLookPossible pos) (MAX_Z.toNat + 2) pos pos firstFloor
  else firstFloor

/-- The 3×3 neighborhood offsets in the iteration order of the nested loops of
`calcFirstVisibleFloor` (outer `ix`, inner `iy`, each from -1 to 1). -/
def neighborhoodOffsets : List (Int × Int) :=
  [(-1, -1), (-1, 0), (-1, 1), (0, -1), (0, 0), (0, 1), (1, -1), (1, 0), (1, 1)]

/-- The double loop of `calcFirstVisibleFloor` over the 3×3 neighborhood
(mapview.cpp lines 721-748); both loop conditions stop scanning once
`firstFloor` reaches the camera's floor. -/
def scan3x3 (w : World) (cameraPosition : Position) (firstFloor0 : Int) : Int :=
  neighborhoodOffsets.foldl
    (fun firstFloor off =>
      if firstFloor < cameraPosition.z then
        scanColumn w cameraPosition off.1 off.2 firstFloor
      else firstFloor)
    firstFloor0

/-- The pre-clamp value of `MapView::calcFirstVisibleFloor` (mapview.cpp lines
700-753), as a function of the state fields it reads. -/
def calcFirstRawVF (w : World) (locked : Int) (cameraPosition : Position)
    (multifloor : Bool) : Int :=
  if locked ≠ -1 then locked
  else if cameraPosition.isValid then
    if multifloor = false then cameraPosition.z
    else
      let firstFloor : Int :=
        if SEA_FLOOR < cameraPosition.z then
          max (cameraPosition.z - AWARE_UNDEGROUND_FLOOR_RANGE) UNDERGROUND_FLOOR
        else 0
      scan3x3 w cameraPosition firstFloor
  else SEA_FLOOR

/-- `MapView::calcFirstVisibleFloor` on the state fields it reads: the raw
first floor clamped to `[0, MAX_FLOOR]` (mapview.cpp line 756). -/
def calcFirstVF (w : World) (locked : Int) (cameraPosition : Position)
    (multifloor : Bool) : Int :=
  clampInt (calcFirstRawVF w locked cameraPosition multifloor) 0 MAX_Z

/-- `MapView::calcFirstVisibleFloor()` (mapview.cpp lines 698-758). -/
def calcFirstVisibleFloor (w : World) (s : MapState) : Int :=
  calcFirstVF w s.lockedFirstVisibleFloor (getCameraPosition s) s.multifloor

/-- The pre-clamp value of the multifloor branch of
`MapView::calcLastVisibleFloor` (mapview.cpp lines 765-778). -/
def calcLastRawVF (locked : Int) (cameraPosition : Position) : Int :=
  let z : Int :=
    if cameraPosition.isValid then
      if SEA_FLOOR < cameraPosition.z then
        cameraPosition.z + AWARE_UNDEGROUND_FLOOR_RANGE
      else SEA_FLOOR
    else SEA_FLOOR
  if locked ≠ -1 then max locked z else z

/-- `MapView::calcLastVisibleFloor` on the state fields it reads (mapview.cpp
lines 760-783): with multifloor rendering disabled it equals the first visible
floor, otherwise the raw last floor clamped to `[0, MAX_FLOOR]`. -/
def calcLastVF (w : World) (locked : Int) (cameraPosition : Position)
    (multifloor : Bool) : Int :=
  if multifloor = false then calcFirstVF w locked cameraPosition multifloor
  else clampInt (calcLastRawVF locked cameraPosition) 0 MAX_Z

/-- `MapView::calcLastVisibleFloor()` (mapview.cpp lines 760-783). -/
def calcLastVisibleFloor (w : World) (s : MapState) : Int :=
  calcLastVF w s.lockedFirstVisibleFloor (getCameraPosition s) s.multifloor

/-- The last visible floor as forced by `updateVisibleTilesCache` (mapview.cpp
lines 354-355): if the computed last floor is below the first, it is raised to
the first. -/
def resolvedLastVisibleFloor (w : World) (s : MapState) : Int :=
  let first := calcFirstVisibleFloor w s
  let last := calcLastVisibleFloor w s
  if last < first then first else last

/-- The loop state of the tile-cache fill of `updateVisibleTilesCache`
(mapview.cpp lines 377-427): the tiles accepted so far tagged with their floor
(`accepted` is kept in reverse acceptance order, newest first, so acceptance is
`O(1)`; the cache assembly reverses it), the running `processedTiles` count,
the `stop` flag, and the running `m_floorMin`/`m_floorMax` span of floors that
yielded tiles. -/
structure FillAcc where
  accepted : List (Int × Tile)
  count : Nat
  stop : Bool
  floorMin : Int
  floorMax : Int

/-- The inputs of the fill loops that stay fixed during one rebuild: the world,
the camera position, the draw dimension, the virtual center offset, the view
mode and the freshly cached first visible floor (used for the
`isCompletelyCovered` query). -/
structure FillCtx where
  world : World
  camera : Position
  width : Int
  height : Int
  vcoX : Int
  vcoY : Int
  viewMode : Nat
  first : Int

/-- Acceptance of one tile (mapview.cpp lines 414-423): append to the floor's
list, notify the tile (a tile-side effect outside this model), widen the
`m_floorMin`/`m_floorMax` span, and count it. -/
def acceptTile (acc : FillAcc) (iz : Int) (tile : Tile) : FillAcc :=
  { accepted := (iz, tile) :: acc.accepted
    count := acc.count + 1
    stop := acc.stop
    floorMin := if iz < acc.floorMin then iz else acc.floorMin
    floorMax :=
      if iz < acc.floorMin then acc.floorMax
      else if acc.floorMax < iz then iz else acc.floorMax }

/-- One body execution of the innermost diagonal loop (mapview.cpp lines
394-424): the draw-count cap check, then the parallax-shifted world position,
then the three skip tests (no tile, nothing drawable, completely covered),
then acceptance. -/
def innerBody (ctx : FillCtx) (iz : Int) (iy ix : Nat) (acc : FillAcc) :
    FillAcc :=
  if MAX_TILE_DRAWS < acc.count ∧ HUGE_VIEW ≤ ctx.viewMode then
    { acc with stop := true }
  else
    let tilePos :=
      (ctx.camera.translated ((ix : Int) - ctx.vcoX)
          ((iy : Int) - ctx.vcoY)).coveredUpBy (ctx.camera.z - iz)
    match ctx.world.getTile tilePos with
    | none => acc
    | some tile =>
      if tile.isDrawable = false then acc
      else if ctx.world.isCompletelyCovered tilePos ctx.first = true then acc
      else acceptTile acc iz tile

/-- The innermost loop over one diagonal (mapview.cpp line 393):
`for(iy = diagonal - advance, ix = advance; iy >= 0 && ix < width && !stop;
--iy, ++ix)`, recursing on the decreasing `iy` (the `iy ≥ 0` exit is the base
case; the caller only enters with `iy ≥ 0`).  Written with a bare `Nat.rec` so
that the kernel can evaluate large concrete runs efficiently; the defining
equations are `innerLoop_zero`/`innerLoop_succ` below. -/
def innerLoop (ctx : FillCtx) (iz : Int) : Nat → Nat → FillAcc → FillAcc :=
  Nat.rec (motive := fun _ => Nat → FillAcc → FillAcc)
    (fun ix acc =>
      if (ix : Int) < ctx.width ∧ acc.stop = false then innerBody ctx iz 0 ix acc
      else acc)
    (fun iy' ih ix acc =>
      if (ix : Int) < ctx.width ∧ acc.stop = false then
        ih (ix + 1) (innerBody ctx iz (iy' + 1) ix acc)
      else acc)

/-- The middle loop over the diagonals of one floor (mapview.cpp lines
390-393): `for(diagonal = 0; diagonal < numDiagonals && !stop; ++diagonal)`
with `advance = max(diagonal - height, 0)` (truncated `Nat` subtraction is
exactly this `max`); recursion is on the remaining diagonal count `r`, with
`d` the current diagonal.  When `diagonal - advance` is negative (only
possible with a negative draw height) the inner loop body never runs, matching
the `iy >= 0` entry test. -/
def diagLoop (ctx : FillCtx) (iz : Int) : Nat → Nat → FillAcc → FillAcc :=
  Nat.rec (motive := fun _ => Nat → FillAcc → FillAcc)
    (fun _ acc => acc)
    (fun _ ih d acc =>
      if acc.stop = false then
        ih (d + 1)
          (if ((d : Int) - (((d : Int) - ctx.height).toNat : Int)) < 0 then acc
           else innerLoop ctx iz
             ((d : Int) - (((d : Int) - ctx.height).toNat : Int)).toNat
             ((d : Int) - ctx.height).toNat acc)
      else acc)

/-- The outer loop over the visible floors (mapview.cpp line 386):
`for(iz = lastVisibleFloor; iz >= firstVisibleFloor && !stop; --iz)`, recursing
on the remaining floor count; `numDiagonals = width + height - 1` (line 385)
is recomputed identically for each floor. -/
def floorLoop (ctx : FillCtx) : Nat → Int → FillAcc → FillAcc :=
  Nat.rec (motive := fun _ => Int → FillAcc → FillAcc)
    (fun _ acc => acc)
    (fun _ ih iz acc =>
      if acc.stop = false then
        ih (iz - 1) (diagLoop ctx iz ((ctx.width + ctx.height - 1).toNat) 0 acc)
      else acc)

/-- The complete fill pass of `updateVisibleTilesCache` over the floor window
`[first, last]` (with `last ≥ first`), starting from an empty accumulator with
the floor span initialised to the camera floor (mapview.cpp lines 377-379). -/
def runFill (ctx : FillCtx) (first last : Int) : FillAcc :=
  floorLoop ctx (last - first + 1).toNat last
    ⟨[], 0, false, ctx.camera.z, ctx.camera.z⟩

/-- The cache-clearing `do`/`while` of `updateVisibleTilesCache` (mapview.cpp
lines 373-375): floors from the previous `m_floorMin` through `m_floorMax` are
cleared; being a `do`/`while`, the floor at `m_floorMin` is cleared even when
the span is empty. -/
def clearSpan (c : Int → List Tile) (mn mx : Int) : Int → List Tile :=
  fun f => if (mn ≤ f ∧ f ≤ mx) ∨ f = mn then [] else c f

/-- Appending the accepted tiles (`A`, in acceptance order) to the per-floor
lists of `base`, reproducing the per-floor `push_back` order: floors are
filled contiguously in descending floor-major, diagonal-minor order, so the
per-floor sublist of `A` is exactly the order in which that floor's
`push_back` calls ran. -/
def fillCache (base : Int → List Tile) (A : List (Int × Tile)) :
    Int → List Tile :=
  fun f => base f ++ (A.filter (fun p => p.1 = f)).map Prod.snd

/-- The `FillCtx` of a rebuild from state `s` with cached first floor
`first`. -/
def mkFillCtx (w : World) (s : MapState) (first : Int) : FillCtx :=
  ⟨w, getCameraPosition s, s.drawDimension.w, s.drawDimension.h,
    s.virtualCenterOffset.x, s.virtualCenterOffset.y, s.viewMode, first⟩

/-- The final fill accumulator of a rebuild from state `s`. -/
def rebuildResult (w : World) (s : MapState) : FillAcc :=
  runFill (mkFillCtx w s (calcFirstVisibleFloor w s))
    (calcFirstVisibleFloor w s) (resolvedLastVisibleFloor w s)

/-- `MapView::updateVisibleTilesCache()` (mapview.cpp lines 339-428).  The
flag `m_mustUpdateVisibleTilesCache` is lowered first; with an invalid camera
the function returns without touching the cache.  Otherwise it caches the
resolved floor window, records the camera, clears the per-floor lists over the
previous `m_floorMin..m_floorMax` span and refills them in draw order
(`onFloorChange` only refreshes the spectators list and light flag, both
outside this model). -/
def updateVisibleTilesCache (w : World) (s : MapState) : MapState :=
  if (getCameraPosition s).isValid = true then
    { s with
      mustUpdateVisibleTilesCache := false
      lastCameraPosition := getCameraPosition s
      cachedFirstVisibleFloor := calcFirstVisibleFloor w s
      cachedLastVisibleFloor := resolvedLastVisibleFloor w s
      floorMin := (rebuildResult w s).floorMin
      floorMax := (rebuildResult w s).floorMax
      cache := fillCache (clearSpan s.cache s.floorMin s.floorMax)
        (rebuildResult w s).accepted.reverse }
  else { s with mustUpdateVisibleTilesCache := false }

/-- The total number of tiles stored across all per-floor lists of the cache
(floors `0` through `MAX_FLOOR`). -/
def totalVisibleTiles (s : MapState) : Nat :=
  ((List.range (MAX_Z.toNat + 1)).map (fun n => (s.cache (n : Int)).length)).sum

/-- The structural invariant of the visible-tile cache: every floor holding
tiles lies inside the recorded `m_floorMin..m_floorMax` span.  It holds of the
initial state (all lists empty) and is re-established by every rebuild. -/
def CacheInv (s : MapState) : Prop :=
  ∀ f : Int, s.cache f ≠ [] → s.floorMin ≤ f ∧ f ≤ s.floorMax

/-- The graphics backend as `updateGeometry` sees it: only the maximum texture
edge is consulted (`g_graphics.getMaxTextureSize()`, an external interface). -/
structure Graphics where
  maxTextureSize : Int

/-- The candidate tile sizes of `updateGeometry` (mapview.cpp line 435). -/
def possiblesTileSizes : List Int := [1, 2, 4, 8, 16, 32]

/-- The tile-size selection loop of `updateGeometry` (mapview.cpp lines
436-444): for each candidate, the buffer is `(visibleDimension + (3,3)) *
candidate`; the loop breaks once the buffer exceeds the maximum texture edge
(keeping the previous tile size), otherwise adopts the candidate and breaks
early once the buffer comfortably covers the optimization hint.  Returns the
selected tile size (0 when even the smallest candidate does not fit). -/
def tileSizeLoop (visibleDimension optimizedSize : Size) (maxTex : Int) :
    List Int → Int → Int
  | [], tileSize => tileSize
  | c :: rest, tileSize =>
    let bufferW := (visibleDimension.w + 3) * c
    let bufferH := (visibleDimension.h + 3) * c
    if maxTex < bufferW ∨ maxTex < bufferH then tileSize
    else if optimizedSize.w < bufferW - 3 * c ∧ optimizedSize.h < bufferH - 3 * c
    then c
    else tileSizeLoop visibleDimension optimizedSize maxTex rest c

/-- The tile size `updateGeometry` selects for the given dimensions. -/
def chooseTileSize (gfx : Graphics) (visibleDimension optimizedSize : Size) :
    Int :=
  tileSizeLoop visibleDimension optimizedSize gfx.maxTextureSize
    possiblesTileSizes 0

/-- The automatic view-mode classification of `updateGeometry` (mapview.cpp
lines 458-465), from the selected tile size and visible area. -/
def classifyViewMode (tileSize : Int) (visibleDimension : Size) : Nat :=
  if 32 ≤ tileSize ∧ visibleDimension.area ≤ (NEAR_VIEW_AREA : Int) then
    NEAR_VIEW
  else if 16 ≤ tileSize ∧ visibleDimension.area ≤ (MID_VIEW_AREA : Int) then
    MID_VIEW
  else if 8 ≤ tileSize ∧ visibleDimension.area ≤ (FAR_VIEW_AREA : Int) then
    FAR_VIEW
  else HUGE_VIEW

/-- `MapView::updateGeometry(visibleDimension, optimizedSize)` (mapview.cpp
lines 430-498).  When no tile size fits ("reached max zoom out",
`ZoomLimitReached`) the state is unchanged.  Otherwise
`drawDimension = visibleDimension + Size(3, 3)` (line 451), the center offsets
are `drawDimension / 2 - (1, 1)` with C++ truncating division, under automatic
view-mode the zoom classification and the multifloor gate are recomputed, and
a cache rebuild is requested with the last camera reset (`resetLastCamera`
assigns the invalid sentinel position). -/
def updateGeometry (gfx : Graphics) (s : MapState)
    (visibleDimension optimizedSize : Size) : MapState :=
  let tileSize := chooseTileSize gfx visibleDimension optimizedSize
  if tileSize = 0 then s
  else
    let drawDimension : Size := ⟨visibleDimension.w + 3, visibleDimension.h + 3⟩
    let virtualCenterOffset : Point :=
      ⟨Int.tdiv drawDimension.w 2 - 1, Int.tdiv drawDimension.h 2 - 1⟩
    let viewMode :=
      if s.autoViewMode then classifyViewMode tileSize visibleDimension
      else s.viewMode
    { s with
      viewMode := viewMode
      multifloor := if s.autoViewMode then decide (viewMode < FAR_VIEW)
        else s.multifloor
      visibleDimension := visibleDimension
      drawDimension := drawDimension
      tileSize := tileSize
      virtualCenterOffset := virtualCenterOffset
      visibleCenterOffset := virtualCenterOffset
      optimizedSize := optimizedSize
      rectDimension := ⟨drawDimension.w * tileSize, drawDimension.h * tileSize⟩
      scaleFactor := (tileSize : ℚ) / 32
      lastCameraPosition := Position.invalid
      mustUpdateVisibleTilesCache := true }

/-- The error taxonomy of §7 as far as geometry configuration reports it: an
odd/too-small visible dimension is `InvalidConfiguration` (both trace-error
messages of `setVisibleDimension`, "visible dimension must be odd" and "reach
max zoom in", fall in this class per §7). -/
inductive GeomError where
  | invalidConfiguration
deriving DecidableEq

/-- `MapView::setVisibleDimension(visibleDimension)` (mapview.cpp lines
580-596): a request equal to the current dimension returns silently; an even
width or height, or a dimension smaller than 3×3, is reported and leaves the
state untouched; otherwise the geometry is reconfigured.  The returned option
is the diagnostic log outcome.  (C++ `%` is `Int.tmod`; for the negative odd
widths where `tmod` and the spec-modelled size comparison overlap, both paths
report `InvalidConfiguration` on an unchanged state.) -/
def setVisibleDimension (gfx : Graphics) (s : MapState)
    (visibleDimension : Size) : MapState × Option GeomError :=
  if visibleDimension = s.visibleDimension then (s, none)
  else if Int.tmod visibleDimension.w 2 ≠ 1 ∨ Int.tmod visibleDimension.h 2 ≠ 1
  then (s, some GeomError.invalidConfiguration)
  else if Size.ltSpec visibleDimension ⟨3, 3⟩ then
    (s, some GeomError.invalidConfiguration)
  else (updateGeometry gfx s visibleDimension s.optimizedSize, none)

/-- `MapView::lockFirstVisibleFloor(firstVisibleFloor)` (mapview.cpp lines
568-572); `requestVisibleTilesCacheUpdate` (inline in `mapview.h`, per §4.3
"invalidation triggers schedule a rebuild on next draw") raises the
must-update flag. -/
def lockFirstVisibleFloor (firstVisibleFloor : Int) (s : MapState) : MapState :=
  { s with
    lockedFirstVisibleFloor := firstVisibleFloor
    mustUpdateVisibleTilesCache := true }

/-- `MapView::unlockFirstVisibleFloor()` (mapview.cpp lines 574-578): stores
the sentinel `-1` and requests a rebuild. -/
def unlockFirstVisibleFloor (s : MapState) : MapState :=
  { s with
    lockedFirstVisibleFloor := -1
    mustUpdateVisibleTilesCache := true }

/-- `MapView::initViewPortDirection()` (mapview.cpp lines 821-863) for one
direction: the base extents come from the aware range (`top`/`bottom` from its
`top`, `left`/`right` from its `right`), widened by one on the axis of
movement, on all four sides for diagonals, and narrowed horizontally for the
unbounded default direction. -/
def initViewPortDirection (awareRange : AwareRange) (dir : Direction) :
    ViewPort :=
  let vp : ViewPort :=
    ⟨awareRange.top, awareRange.right, awareRange.top, awareRange.right⟩
  match dir with
  | Direction.north | Direction.south =>
    { vp with top := vp.top + 1, bottom := vp.bottom + 1 }
  | Direction.west | Direction.east =>
    { vp with right := vp.right + 1, left := vp.left + 1 }
  | Direction.northEast | Direction.southEast
  | Direction.northWest | Direction.southWest =>
    { vp with
      left := vp.left + 1
      bottom := vp.bottom + 1
      top := vp.top + 1
      right := vp.right + 1 }
  | Direction.invalidDirection =>
    { vp with left := vp.left - 1, right := vp.right - 1 }

/-- The light view as `canRenderTile` consults it: present only when light
drawing is active, with its current darkness state. -/
structure LightViewState where
  isDark : Bool

/-- `MapView::canRenderTile(tile, viewPort, lightView)` (mapview.cpp lines
865-888): always render while viewport-edge debugging is on or a dark light
view wants this light-emitting tile; otherwise project the tile to the
camera's floor along the parallax diagonal and reject positions outside the
direction-specific viewport, with the documented wide/tall/displacement
tolerances on the right and bottom edges. -/
def canRenderTile (s : MapState) (tile : Tile) (viewPort : ViewPort)
    (lightView : Option LightViewState) : Bool :=
  let darkOverride :=
    match lightView with
    | some lv => lv.isDark && tile.hasLight
    | none => false
  if s.drawViewportEdge || darkOverride then true
  else
    let cameraPosition := getCameraPosition s
    let tilePos := tile.pos
    let dz := tilePos.z - cameraPosition.z
    let checkPos := tilePos.translated dz dz
    if viewPort.left ≤ cameraPosition.x - checkPos.x ∨
        (checkPos.x - cameraPosition.x = viewPort.right ∧
          ¬tile.hasWideThings = true ∧ ¬tile.hasDisplacement = true) then
      false
    else if viewPort.top ≤ cameraPosition.y - checkPos.y ∨
        (checkPos.y - cameraPosition.y = viewPort.bottom ∧
          ¬tile.hasTallThings = true ∧ ¬tile.hasDisplacement = true) then
      false
    else if (viewPort.right < checkPos.x - cameraPosition.x ∧
          (¬tile.hasWideThings = true ∨ ¬tile.hasDisplacement = true)) ∨
        viewPort.bottom < checkPos.y - cameraPosition.y then
      false
    else true

/-- The shader cross-fade state of `MapView`: the active shader, the pending
shader, the switch-done flag, the fade timer's start instant, and the two fade
durations.  Shaders are identified abstractly by number (`none` = no shader);
the timer is modelled by its restart instant, `timeElapsed = now - start`
(`Timer` lives in the framework, outside the sources). -/
structure FadeState where
  shader : Option Nat
  nextShader : Option Nat
  shaderSwitchDone : Bool
  fadeTimerStart : ℚ
  fadeInTime : ℚ
  fadeOutTime : ℚ
deriving DecidableEq

/-- `MapView::setShader(shader, fadein, fadeout)` (mapview.cpp lines 793-809):
requesting the already-active (or already-pending) shader is a no-op; with a
positive fade-out and an active shader the switch is deferred to the fade
logic of `draw()`, otherwise it is immediate; the fade timer restarts and the
durations are stored. -/
def setShader (st : FadeState) (now : ℚ) (shader : Option Nat)
    (fadein fadeout : ℚ) : FadeState :=
  if (st.shader = shader ∧ st.shaderSwitchDone = true) ∨
      (st.nextShader = shader ∧ st.shaderSwitchDone = false) then st
  else
    let st' :=
      if 0 < fadeout ∧ st.shader.isSome = true then
        { st with nextShader := shader, shaderSwitchDone := false }
      else
        { st with
          shader := shader
          nextShader := none
          shaderSwitchDone := true }
    { st' with
      fadeTimerStart := now
      fadeInTime := fadein
      fadeOutTime := fadeout }

/-- The fade section of `MapView::draw()` (mapview.cpp lines 156-168), as a
state transition at instant `now` returning the output opacity: while a switch
is pending and fade-out is positive, opacity ramps down linearly; the moment
it would go negative the pending shader becomes active, the timer restarts and
(with a positive fade-in) opacity resumes from 0; once switched, a positive
fade-in ramps opacity up, clamped at 1. -/
def drawFade (st : FadeState) (now : ℚ) : FadeState × ℚ :=
  if st.shaderSwitchDone = false ∧ 0 < st.fadeOutTime then
    let fadeOpacity : ℚ := 1 - (now - st.fadeTimerStart) / st.fadeOutTime
    if fadeOpacity < 0 then
      let st' :=
        { st with
          shader := st.nextShader
          nextShader := none
          shaderSwitchDone := true
          fadeTimerStart := now }
      if st'.shader.isSome = true ∧ 0 < st'.fadeInTime then
        (st', min ((now - now) / st'.fadeInTime) 1)
      else (st', fadeOpacity)
    else (st, fadeOpacity)
  else if st.shaderSwitchDone = true ∧ st.shader.isSome = true ∧
      0 < st.fadeInTime then
    (st, min ((now - st.fadeTimerStart) / st.fadeInTime) 1)
  else (st, 1)

/-- C++ `static_cast<int>` of a rational (truncation toward zero), as in
`std::max<int>(m_minimumAmbientLight * 255, ambientLight.intensity)`. -/
def ratTruncToInt (q : ℚ) : Int :=
  if 0 ≤ q then ⌊q⌋ else -⌊-q⌋

/-- The global ambient-light computation of the light-layer redraw in
`MapView::draw()` (mapview.cpp lines 100-107): a camera floor numerically
above the sea-floor constant (the underground side) yields the fixed value
color 215 / intensity 0, otherwise the light is read from the world; in either
case the intensity is floored by `minimumAmbientLight * 255`. -/
def computeAmbientLight (w : World) (cameraZ : Int)
    (minimumAmbientLight : ℚ) : Light :=
  let ambientLight : Light :=
    if SEA_FLOOR < cameraZ then { color := 215, intensity := 0 } else w.light
  { ambientLight with
    intensity := max (ratTruncToInt (minimumAmbientLight * 255))
      ambientLight.intensity }

/-! ## Concrete instances used as test inputs -/

/-- A world with no tiles at all, full look-through, and a bright world
light. -/
def emptyWorld : World :=
  { getTile := fun _ => none
    isCompletelyCovered := fun _ _ => false
    isLookPossible := fun _ => true
    light := ⟨100, 200⟩ }

/-- A world where every position holds a drawable, uncovered tile. -/
def allTileWorld : World :=
  { getTile := fun p => some ⟨p, true, false, false, false, false, false, false⟩
    isCompletelyCovered := fun _ _ => false
    isLookPossible := fun _ => true
    light := ⟨250, 250⟩ }

/-- A near-view state as the constructor leaves it (visible dimension 15×11,
draw dimension 18×14, camera fixed at `(100, 100, 7)`, no lock, multifloor
on). -/
def baseState : MapState :=
  { follow := false
    followingCreaturePos := Position.invalid
    customCameraPosition := ⟨100, 100, 7⟩
    lastCameraPosition := Position.invalid
    lockedFirstVisibleFloor := -1
    cachedFirstVisibleFloor := SEA_FLOOR
    cachedLastVisibleFloor := SEA_FLOOR
    multifloor := true
    autoViewMode := true
    viewMode := NEAR_VIEW
    visibleDimension := ⟨15, 11⟩
    drawDimension := ⟨18, 14⟩
    tileSize := 32
    virtualCenterOffset := ⟨8, 6⟩
    visibleCenterOffset := ⟨8, 6⟩
    optimizedSize := ⟨0, 0⟩
    rectDimension := ⟨18 * 32, 14 * 32⟩
    scaleFactor := 1
    minimumAmbientLight := 0
    drawViewportEdge := false
    floorMin := 0
    floorMax := 0
    cache := fun _ => []
    mustUpdateVisibleTilesCache := true }

/-- A huge-view single-floor state: the camera floor window degenerates to
`[7, 7]` (multifloor off) while the 120×60 draw dimension offers far more than
`MAX_TILE_DRAWS` candidate cells. -/
def hugeState : MapState :=
  { baseState with
    customCameraPosition := ⟨1000, 1000, 7⟩
    multifloor := false
    viewMode := HUGE_VIEW
    visibleDimension := ⟨117, 57⟩
    drawDimension := ⟨120, 60⟩
    tileSize := 1
    virtualCenterOffset := ⟨59, 29⟩
    visibleCenterOffset := ⟨59, 29⟩
    rectDimension := ⟨120, 60⟩ }

/-- `baseState` with an invalid (not yet known) camera position. -/
def invalidCameraState : MapState :=
  { baseState with customCameraPosition := Position.invalid }

/-- A graphics backend with the common 4096-pixel maximum texture edge. -/
def gfx0 : Graphics := ⟨4096⟩

/-! ## Loop equations and preservation lemmas -/

/-- Defining equation of `innerLoop` at `iy = 0`. -/
theorem innerLoop_zero (ctx : FillCtx) (iz : Int) (ix : Nat) (acc : FillAcc) :
    innerLoop ctx iz 0 ix acc =
      if (ix : Int) < ctx.width ∧ acc.stop = false then innerBody ctx iz 0 ix acc
      else acc := rfl

/-- Defining equation of `innerLoop` at `iy + 1`. -/
theorem innerLoop_succ (ctx : FillCtx) (iz : Int) (iy ix : Nat)
    (acc : FillAcc) :
    innerLoop ctx iz (iy + 1) ix acc =
      if (ix : Int) < ctx.width ∧ acc.stop = false then
        innerLoop ctx iz iy (ix + 1) (innerBody ctx iz (iy + 1) ix acc)
      else acc := rfl

/-- Defining equation of `diagLoop` with no diagonals remaining. -/
theorem diagLoop_zero (ctx : FillCtx) (iz : Int) (d : Nat) (acc : FillAcc) :
    diagLoop ctx iz 0 d acc = acc := rfl

/-- Defining equation of `diagLoop` with `r + 1` diagonals remaining. -/
theorem diagLoop_succ (ctx : FillCtx) (iz : Int) (r d : Nat) (acc : FillAcc) :
    diagLoop ctx iz (r + 1) d acc =
      if acc.stop = false then
        diagLoop ctx iz r (d + 1)
          (if ((d : Int) - (((d : Int) - ctx.height).toNat : Int)) < 0 then acc
           else innerLoop ctx iz
             ((d : Int) - (((d : Int) - ctx.height).toNat : Int)).toNat
             ((d : Int) - ctx.height).toNat acc)
      else acc := rfl

/-- Defining equation of `floorLoop` with no floors remaining. -/
theorem floorLoop_zero (ctx : FillCtx) (iz : Int) (acc : FillAcc) :
    floorLoop ctx 0 iz acc = acc := rfl

/-- Defining equation of `floorLoop` with `n + 1` floors remaining. -/
theorem floorLoop_succ (ctx : FillCtx) (n : Nat) (iz : Int) (acc : FillAcc) :
    floorLoop ctx (n + 1) iz acc =
      if acc.stop = false then
        floorLoop ctx n (iz - 1)
          (diagLoop ctx iz ((ctx.width + ctx.height - 1).toNat) 0 acc)
      else acc := rfl

/-- Any accumulator property preserved by every `innerBody` execution at floor
`iz` is preserved by `innerLoop`. -/
theorem innerLoop_preserve (ctx : FillCtx) (iz : Int) (P : FillAcc → Prop)
    (hP : ∀ iy ix acc, P acc → P (innerBody ctx iz iy ix acc)) :
    ∀ iy ix acc, P acc → P (innerLoop ctx iz iy ix acc) := by
  intro iy
  induction iy with
  | zero =>
    intro ix acc h
    rw [innerLoop_zero]
    split
    · exact hP 0 ix acc h
    · exact h
  | succ n ih =>
    intro ix acc h
    rw [innerLoop_succ]
    split
    · exact ih (ix + 1) _ (hP (n + 1) ix acc h)
    · exact h

/-- Any accumulator property preserved by every `innerBody` execution at floor
`iz` is preserved by `diagLoop`. -/
theorem diagLoop_preserve (ctx : FillCtx) (iz : Int) (P : FillAcc → Prop)
    (hP : ∀ iy ix acc, P acc → P (innerBody ctx iz iy ix acc)) :
    ∀ r d acc, P acc → P (diagLoop ctx iz r d acc) := by
  intro r
  induction r with
  | zero =>
    intro d acc h
    rw [diagLoop_zero]
    exact h
  | succ n ih =>
    intro d acc h
    rw [diagLoop_succ]
    split
    · apply ih
      split
      · exact h
      · exact innerLoop_preserve ctx iz P hP _ _ _ h
    · exact h

/-- Any accumulator property preserved by every `innerBody` execution at the
floors in `[lo, hi]` is preserved by a `floorLoop` run that visits only floors
in that interval. -/
theorem floorLoop_preserve (ctx : FillCtx) (lo hi : Int) (P : FillAcc → Prop)
    (hP : ∀ iz iy ix acc, lo ≤ iz → iz ≤ hi →
      P acc → P (innerBody ctx iz iy ix acc)) :
    ∀ (n : Nat) (iz : Int) (acc : FillAcc), lo ≤ iz - n + 1 → iz ≤ hi →
      P acc → P (floorLoop ctx n iz acc) := by
  intro n
  induction n with
  | zero =>
    intro iz acc _ _ h
    rw [floorLoop_zero]
    exact h
  | succ n ih =>
    intro iz acc hlo hhi h
    rw [floorLoop_succ]
    split
    · apply ih (iz - 1) _ (by push_cast at hlo ⊢; omega) (by omega)
      exact diagLoop_preserve ctx iz P
        (fun iy ix acc => hP iz iy ix acc (by push_cast at hlo; omega) hhi)
        _ _ _ h
    · exact h

/-- `innerBody` preserves the floor-span invariant: the recorded
`floorMin ≤ floorMax` interval contains the floor of every accepted tile. -/
theorem innerBody_span (ctx : FillCtx) (iz : Int) (iy ix : Nat) (acc : FillAcc)
    (h : acc.floorMin ≤ acc.floorMax ∧
      ∀ p ∈ acc.accepted, acc.floorMin ≤ p.1 ∧ p.1 ≤ acc.floorMax) :
    (innerBody ctx iz iy ix acc).floorMin ≤ (innerBody ctx iz iy ix acc).floorMax ∧
      ∀ p ∈ (innerBody ctx iz iy ix acc).accepted,
        (innerBody ctx iz iy ix acc).floorMin ≤ p.1 ∧
          p.1 ≤ (innerBody ctx iz iy ix acc).floorMax := by
  obtain ⟨h1, h2⟩ := h
  simp only [innerBody]
  split
  · exact ⟨h1, h2⟩
  · split
    · exact ⟨h1, h2⟩
    · split
      · exact ⟨h1, h2⟩
      · split
        · exact ⟨h1, h2⟩
        · unfold acceptTile
          dsimp only
          by_cases h3 : iz < acc.floorMin
          · simp only [if_pos h3]
            refine ⟨by omega, ?_⟩
            intro p hp
            rcases List.mem_cons.mp hp with hpe | hpm
            · subst hpe; dsimp only; omega
            · have := h2 p hpm; omega
          · simp only [if_neg h3]
            by_cases h4 : acc.floorMax < iz
            · simp only [if_pos h4]
              refine ⟨by omega, ?_⟩
              intro p hp
              rcases List.mem_cons.mp hp with hpe | hpm
              · subst hpe; dsimp only; omega
              · have := h2 p hpm; omega
            · simp only [if_neg h4]
              refine ⟨h1, ?_⟩
              intro p hp
              rcases List.mem_cons.mp hp with hpe | hpm
              · subst hpe; dsimp only; omega
              · exact h2 p hpm

/-- `innerBody` preserves the bookkeeping equality between the length of the
accepted list and the `processedTiles` count. -/
theorem innerBody_len (ctx : FillCtx) (iz : Int) (iy ix : Nat) (acc : FillAcc)
    (h : acc.accepted.length = acc.count) :
    (innerBody ctx iz iy ix acc).accepted.length =
      (innerBody ctx iz iy ix acc).count := by
  simp only [innerBody]
  split
  · exact h
  · split
    · exact h
    · split
      · exact h
      · split
        · exact h
        · simp only [acceptTile, List.length_cons, h]

/-- `innerBody` keeps every accepted floor inside `[lo, hi]` provided the
currently visited floor lies in `[lo, hi]`. -/
theorem innerBody_range (ctx : FillCtx) (lo hi iz : Int) (iy ix : Nat)
    (acc : FillAcc) (hlo : lo ≤ iz) (hhi : iz ≤ hi)
    (h : ∀ p ∈ acc.accepted, lo ≤ p.1 ∧ p.1 ≤ hi) :
    ∀ p ∈ (innerBody ctx iz iy ix acc).accepted, lo ≤ p.1 ∧ p.1 ≤ hi := by
  simp only [innerBody]
  split
  · exact h
  · split
    · exact h
    · split
      · exact h
      · split
        · exact h
        · intro p hp
          rcases List.mem_cons.mp hp with hpe | hpm
          · subst hpe; exact ⟨hlo, hhi⟩
          · exact h p hpm

/-- With the view mode at or beyond `HUGE_VIEW`, `innerBody` never pushes the
count beyond `MAX_TILE_DRAWS + 1`: past the cap it only raises `stop`. -/
theorem innerBody_cap (ctx : FillCtx) (iz : Int) (iy ix : Nat) (acc : FillAcc)
    (hH : HUGE_VIEW ≤ ctx.viewMode)
    (h : acc.count ≤ MAX_TILE_DRAWS + 1) :
    (innerBody ctx iz iy ix acc).count ≤ MAX_TILE_DRAWS + 1 := by
  simp only [innerBody]
  split
  · exact h
  · rename_i hcap
    have hcount : acc.count ≤ MAX_TILE_DRAWS := by
      by_contra hc
      exact hcap ⟨by omega, hH⟩
    split
    · exact h
    · split
      · exact h
      · split
        · exact h
        · simp only [acceptTile]
          omega

/-- The floor-span invariant holds of every rebuild result. -/
theorem rebuildResult_span (w : World) (s : MapState) :
    (rebuildResult w s).floorMin ≤ (rebuildResult w s).floorMax ∧
      ∀ p ∈ (rebuildResult w s).accepted,
        (rebuildResult w s).floorMin ≤ p.1 ∧
          p.1 ≤ (rebuildResult w s).floorMax := by
  unfold rebuildResult runFill
  refine floorLoop_preserve _
    (resolvedLastVisibleFloor w s -
      ((resolvedLastVisibleFloor w s - calcFirstVisibleFloor w s + 1).toNat : Int)
      + 1)
    (resolvedLastVisibleFloor w s)
    (fun acc => acc.floorMin ≤ acc.floorMax ∧
      ∀ p ∈ acc.accepted, acc.floorMin ≤ p.1 ∧ p.1 ≤ acc.floorMax)
    (fun iz iy ix acc _ _ h => innerBody_span _ iz iy ix acc h)
    _ _ _ (by omega) (by omega) ⟨le_refl _, by intro p hp; cases hp⟩

/-- The accepted-length/count equality holds of every rebuild result. -/
theorem rebuildResult_len (w : World) (s : MapState) :
    (rebuildResult w s).accepted.length = (rebuildResult w s).count := by
  unfold rebuildResult runFill
  refine floorLoop_preserve _
    (resolvedLastVisibleFloor w s -
      ((resolvedLastVisibleFloor w s - calcFirstVisibleFloor w s + 1).toNat : Int)
      + 1)
    (resolvedLastVisibleFloor w s)
    (fun acc => acc.accepted.length = acc.count)
    (fun iz iy ix acc _ _ h => innerBody_len _ iz iy ix acc h)
    _ _ _ (by omega) (by omega) rfl

/-! ## Floor-window bounds -/

/-- `clampInt` lands in the clamping interval. -/
theorem clampInt_bounds (v lo hi : Int) (h : lo ≤ hi) :
    lo ≤ clampInt v lo hi ∧ clampInt v lo hi ≤ hi := by
  unfold clampInt
  split
  · omega
  · split <;> omega

/-- `clampInt` fixes values already inside the interval. -/
theorem clampInt_eq_self (v lo hi : Int) (h1 : lo ≤ v) (h2 : v ≤ hi) :
    clampInt v lo hi = v := by
  unfold clampInt
  split
  · omega
  · split <;> omega

/-- The first visible floor always lies in `[0, MAX_FLOOR]`. -/
theorem calcFirst_bounds (w : World) (s : MapState) :
    0 ≤ calcFirstVisibleFloor w s ∧ calcFirstVisibleFloor w s ≤ MAX_Z := by
  unfold calcFirstVisibleFloor calcFirstVF
  exact clampInt_bounds _ _ _ (by decide)

/-- The last visible floor always lies in `[0, MAX_FLOOR]`. -/
theorem calcLast_bounds (w : World) (s : MapState) :
    0 ≤ calcLastVisibleFloor w s ∧ calcLastVisibleFloor w s ≤ MAX_Z := by
  unfold calcLastVisibleFloor calcLastVF
  split
  · unfold calcFirstVF
    exact clampInt_bounds _ _ _ (by decide)
  · exact clampInt_bounds _ _ _ (by decide)

/-- The forced last visible floor is at least the first and at most
`MAX_FLOOR`. -/
theorem resolvedLast_bounds (w : World) (s : MapState) :
    calcFirstVisibleFloor w s ≤ resolvedLastVisibleFloor w s ∧
      resolvedLastVisibleFloor w s ≤ MAX_Z := by
  have h1 := calcFirst_bounds w s
  have h2 := calcLast_bounds w s
  simp only [resolvedLastVisibleFloor]
  split <;> omega

/-- Every floor accepted by a rebuild lies in the resolved floor window. -/
theorem rebuildResult_range (w : World) (s : MapState) :
    ∀ p ∈ (rebuildResult w s).accepted,
      calcFirstVisibleFloor w s ≤ p.1 ∧
        p.1 ≤ resolvedLastVisibleFloor w s := by
  have hfl := (resolvedLast_bounds w s).1
  unfold rebuildResult runFill
  refine floorLoop_preserve _ (calcFirstVisibleFloor w s)
    (resolvedLastVisibleFloor w s)
    (fun acc => ∀ p ∈ acc.accepted,
      calcFirstVisibleFloor w s ≤ p.1 ∧ p.1 ≤ resolvedLastVisibleFloor w s)
    (fun iz iy ix acc hlo hhi h => innerBody_range _ _ _ iz iy ix acc hlo hhi h)
    _ _ _ (by omega) (by omega) (by intro p hp; cases hp)

/-- With the view mode at or beyond `HUGE_VIEW`, a rebuild accepts at most
`MAX_TILE_DRAWS + 1` tiles. -/
theorem rebuildResult_cap (w : World) (s : MapState)
    (hH : HUGE_VIEW ≤ s.viewMode) :
    (rebuildResult w s).count ≤ MAX_TILE_DRAWS + 1 := by
  unfold rebuildResult runFill
  refine floorLoop_preserve _
    (resolvedLastVisibleFloor w s -
      ((resolvedLastVisibleFloor w s - calcFirstVisibleFloor w s + 1).toNat : Int)
      + 1)
    (resolvedLastVisibleFloor w s)
    (fun acc => acc.count ≤ MAX_TILE_DRAWS + 1)
    (fun iz iy ix acc _ _ h => innerBody_cap _ iz iy ix acc hH h)
    _ _ _ (by omega) (by omega) (Nat.zero_le _)

/-! ## Cache assembly -/

/-- Clearing the recorded span of a cache satisfying `CacheInv` empties it
entirely. -/
theorem clearSpan_empty (c : Int → List Tile) (mn mx : Int)
    (h : ∀ f, c f ≠ [] → mn ≤ f ∧ f ≤ mx) :
    clearSpan c mn mx = fun _ => [] := by
  funext f
  unfold clearSpan
  split
  · rfl
  · rename_i hcond
    by_cases hc : c f = []
    · exact hc
    · exact absurd (Or.inl (h f hc)) hcond

/-- A rebuild from a state satisfying the cache invariant re-establishes the
cache invariant. -/
theorem update_cacheInv (w : World) (s : MapState)
    (hv : (getCameraPosition s).isValid = true) (hInv : CacheInv s) :
    CacheInv (updateVisibleTilesCache w s) := by
  unfold CacheInv updateVisibleTilesCache
  rw [if_pos hv]
  dsimp only
  intro f hne
  rw [clearSpan_empty s.cache s.floorMin s.floorMax hInv] at hne
  unfold fillCache at hne
  simp only [List.nil_append] at hne
  have hfil : (rebuildResult w s).accepted.reverse.filter
      (fun p => p.1 = f) ≠ [] := by
    intro hz
    rw [hz] at hne
    exact hne rfl
  rw [ne_eq, List.filter_eq_nil_iff] at hfil
  push_neg at hfil
  obtain ⟨p, hpmem, hpf⟩ := hfil
  have hspan := (rebuildResult_span w s).2 p (List.mem_reverse.mp hpmem)
  simp only [decide_eq_true_eq] at hpf
  omega

/-! ## Counting the cache -/

/-- Sums of pointwise-added maps split. -/
theorem sum_map_add_nat (l : List Int) (f g : Int → Nat) :
    (l.map (fun x => f x + g x)).sum = (l.map f).sum + (l.map g).sum := by
  induction l with
  | nil => rfl
  | cons a l ih =>
    simp only [List.map_cons, List.sum_cons, ih]
    omega

/-- An indicator sums to zero over a list missing its point. -/
theorem sum_ite_zero (a : Int) (l : List Int) (h : a ∉ l) :
    (l.map (fun f => if a = f then 1 else 0)).sum = 0 := by
  induction l with
  | nil => rfl
  | cons b l ih =>
    simp only [List.mem_cons, not_or] at h
    simp only [List.map_cons, List.sum_cons, if_neg h.1, ih h.2]

/-- An indicator sums to one over a duplicate-free list containing its
point. -/
theorem sum_ite_one (a : Int) (l : List Int) (hnd : l.Nodup) (hm : a ∈ l) :
    (l.map (fun f => if a = f then 1 else 0)).sum = 1 := by
  induction l with
  | nil => cases hm
  | cons b l ih =>
    obtain ⟨hb, hl⟩ := List.nodup_cons.mp hnd
    simp only [List.map_cons, List.sum_cons]
    rcases List.mem_cons.mp hm with he | hmem
    · rw [if_pos he, sum_ite_zero a l (he ▸ hb)]
    · have hne : a ≠ b := fun he => hb (he ▸ hmem)
      rw [if_neg hne, ih hl hmem]

/-- Summing the per-floor filtered lengths over a duplicate-free list of
floors covering every accepted floor recovers the total accepted length. -/
theorem sum_proj_eq (l : List Int) (hnd : l.Nodup) :
    ∀ A : List (Int × Tile), (∀ p ∈ A, p.1 ∈ l) →
      (l.map
        (fun f => ((A.filter (fun p => p.1 = f)).map Prod.snd).length)).sum
        = A.length := by
  intro A
  induction A with
  | nil => intro _; simp
  | cons a A ih =>
    intro hmem
    have key : ∀ f : Int,
        (((a :: A).filter (fun p => p.1 = f)).map Prod.snd).length
          = (if a.1 = f then 1 else 0)
            + ((A.filter (fun p => p.1 = f)).map Prod.snd).length := by
      intro f
      by_cases he : a.1 = f
      · rw [List.filter_cons_of_pos (by simpa using he)]
        simp only [List.map_cons, List.length_cons, if_pos he]
        omega
      · rw [List.filter_cons_of_neg (by simpa using he)]
        simp [he]
    simp only [key]
    rw [sum_map_add_nat,
      sum_ite_one a.1 l hnd (hmem a (List.mem_cons_self a A)),
      ih (fun p hp => hmem p (List.mem_cons_of_mem a hp))]
    simp [Nat.add_comm]

/-- Moving the floor-index cast out of the per-floor summation. -/
theorem sum_over_floors (g : Int → Nat) :
    ((List.range (MAX_Z.toNat + 1)).map (fun n => g (n : Int))).sum
      = (((List.range (MAX_Z.toNat + 1)).map Int.ofNat).map g).sum := by
  rw [List.map_map]
  rfl

/-- After a rebuild from an invariant-satisfying state, the total number of
cached tiles is exactly the loop's accepted count. -/
theorem totalVisibleTiles_update (w : World) (s : MapState)
    (hv : (getCameraPosition s).isValid = true) (hInv : CacheInv s) :
    totalVisibleTiles (updateVisibleTilesCache w s)
      = (rebuildResult w s).count := by
  unfold totalVisibleTiles updateVisibleTilesCache
  rw [if_pos hv]
  dsimp only
  rw [clearSpan_empty s.cache s.floorMin s.floorMax hInv]
  unfold fillCache
  simp only [List.nil_append]
  rw [sum_over_floors
    (fun f => (((rebuildResult w s).accepted.reverse.filter
      (fun p => p.1 = f)).map Prod.snd).length)]
  rw [sum_proj_eq _ (by decide) _ ?_]
  · rw [List.length_reverse]
    exact rebuildResult_len w s
  · intro p hp
    have hrange := rebuildResult_range w s p (List.mem_reverse.mp hp)
    have h0 := calcFirst_bounds w s
    have h2 := resolvedLast_bounds w s
    have hmz : MAX_Z = 15 := rfl
    have hmzt : MAX_Z.toNat = 15 := rfl
    have hx : p.1 = ((p.1.toNat : Nat) : Int) := by omega
    rw [hx]
    refine List.mem_map_of_mem Int.ofNat (List.mem_range.mpr ?_)
    omega

/-! ## Claim theorems -/

/-- C2: for every valid camera position (any lock state and world content),
the floor window cached by the rebuild satisfies
`0 ≤ firstVisibleFloor ≤ lastVisibleFloor ≤ MAX_FLOOR`: both ends are clamped
to `[0, MAX_FLOOR]` and a computed last floor below the first is forced up to
the first, so the window is never empty or inverted. -/
theorem claim_C2_floor_window (w : World) (s : MapState)
    (hv : (getCameraPosition s).isValid = true) :
    0 ≤ (updateVisibleTilesCache w s).cachedFirstVisibleFloor ∧
      (updateVisibleTilesCache w s).cachedFirstVisibleFloor ≤
        (updateVisibleTilesCache w s).cachedLastVisibleFloor ∧
      (updateVisibleTilesCache w s).cachedLastVisibleFloor ≤ MAX_Z := by
  unfold updateVisibleTilesCache
  rw [if_pos hv]
  dsimp only
  have h0 := calcFirst_bounds w s
  have h2 := resolvedLast_bounds w s
  exact ⟨h0.1, h2.1, h2.2⟩

/-- Witness for C2 at a concrete camera. -/
theorem claim_C2_witness :
    0 ≤ (updateVisibleTilesCache emptyWorld baseState).cachedFirstVisibleFloor ∧
      (updateVisibleTilesCache emptyWorld baseState).cachedFirstVisibleFloor ≤
        (updateVisibleTilesCache emptyWorld baseState).cachedLastVisibleFloor ∧
      (updateVisibleTilesCache emptyWorld baseState).cachedLastVisibleFloor ≤
        MAX_Z :=
  claim_C2_floor_window emptyWorld baseState (by decide)

/-- C3 (amended): locking the first visible floor to a value inside
`[0, MAX_FLOOR]` makes `calcFirstVisibleFloor` return exactly that value,
bypassing the occlusion scan, for every world and state; values outside the
range are clamped (see the counterexample), so the claim's "every integer f"
must be restricted to `[0, MAX_FLOOR]`. -/
theorem claim_C3_locked_floor (w : World) (s : MapState) (f : Int)
    (h0 : 0 ≤ f) (h1 : f ≤ MAX_Z) :
    calcFirstVisibleFloor w (lockFirstVisibleFloor f s) = f := by
  unfold calcFirstVisibleFloor lockFirstVisibleFloor calcFirstVF calcFirstRawVF
  dsimp only
  rw [if_pos (show f ≠ -1 by omega)]
  exact clampInt_eq_self f 0 MAX_Z h0 h1

/-- Witness for C3 at the concrete locked floor 5. -/
theorem claim_C3_witness :
    (0 : Int) ≤ 5 ∧ (5 : Int) ≤ MAX_Z ∧
      calcFirstVisibleFloor emptyWorld (lockFirstVisibleFloor 5 baseState) = 5 :=
  ⟨by decide, by decide,
    claim_C3_locked_floor emptyWorld baseState 5 (by decide) (by decide)⟩

/-- Counterexample to C3 as stated: at `f = -1` the "lock" stores the
unlocked sentinel, so `calcFirstVisibleFloor` performs the occlusion scan
(here yielding floor 0 in an unoccluded world) instead of returning `-1`. -/
theorem claim_C3_counterexample :
    calcFirstVisibleFloor emptyWorld (lockFirstVisibleFloor (-1) baseState) = 0 ∧
      (0 : Int) ≠ -1 :=
  ⟨by decide, by decide⟩

/-- C10: `lockFirstVisibleFloor (-1)` is the same state transition as
`unlockFirstVisibleFloor`, hence `calcFirstVisibleFloor` then runs the full
occlusion-based computation, and since its result is clamped to
`[0, MAX_FLOOR]` no caller can ever pin the first visible floor to `-1`. -/
theorem claim_C10_lock_unlock (s : MapState) (w : World) :
    lockFirstVisibleFloor (-1) s = unlockFirstVisibleFloor s ∧
      calcFirstVisibleFloor w (lockFirstVisibleFloor (-1) s)
        = calcFirstVisibleFloor w (unlockFirstVisibleFloor s) ∧
      0 ≤ calcFirstVisibleFloor w (lockFirstVisibleFloor (-1) s) ∧
      calcFirstVisibleFloor w (lockFirstVisibleFloor (-1) s) ≠ -1 := by
  refine ⟨rfl, rfl, (calcFirst_bounds w _).1, ?_⟩
  have := (calcFirst_bounds w (lockFirstVisibleFloor (-1) s)).1
  omega

/-- C4 (amended): every successful geometry reconfiguration sets
`drawDimension = visibleDimension + 3` in each axis — the code adds
`Size(3, 3)` (mapview.cpp line 451), not the 2 the spec claims. -/
theorem claim_C4_draw_dimension (gfx : Graphics) (s : MapState)
    (visibleDimension optimizedSize : Size)
    (h : chooseTileSize gfx visibleDimension optimizedSize ≠ 0) :
    (updateGeometry gfx s visibleDimension optimizedSize).drawDimension
      = ⟨visibleDimension.w + 3, visibleDimension.h + 3⟩ := by
  simp only [updateGeometry]
  rw [if_neg h]

/-- Witness for C4 at the constructor's 15×11 dimension. -/
theorem claim_C4_witness :
    chooseTileSize gfx0 (⟨15, 11⟩ : Size) (⟨0, 0⟩ : Size) ≠ 0 ∧
      (updateGeometry gfx0 baseState ⟨15, 11⟩ ⟨0, 0⟩).drawDimension
        = ⟨15 + 3, 11 + 3⟩ :=
  ⟨by decide, claim_C4_draw_dimension gfx0 baseState ⟨15, 11⟩ ⟨0, 0⟩ (by decide)⟩

/-- Counterexample to C4 as stated: a successful reconfiguration at 15×11
yields an 18×14 draw dimension, not the claimed `visibleDimension + 2` =
17×13. -/
theorem claim_C4_counterexample :
    chooseTileSize gfx0 (⟨15, 11⟩ : Size) (⟨0, 0⟩ : Size) ≠ 0 ∧
      (updateGeometry gfx0 baseState ⟨15, 11⟩ ⟨0, 0⟩).drawDimension
        ≠ ⟨15 + 2, 11 + 2⟩ :=
  ⟨by decide, by decide⟩

/-- C5: a requested visible dimension with an even width or height, or smaller
than 3×3, is rejected by `setVisibleDimension` as a no-op reporting
`InvalidConfiguration`, leaving the whole state unchanged (the hypothesis that
the current dimension is odd and at least 3×3 holds of every reachable state,
so an invalid request never silently matches the current dimension). -/
theorem claim_C5_reject (gfx : Graphics) (s : MapState) (vd : Size)
    (hcur : Int.tmod s.visibleDimension.w 2 = 1 ∧
      Int.tmod s.visibleDimension.h 2 = 1 ∧
      3 ≤ s.visibleDimension.w ∧ 3 ≤ s.visibleDimension.h)
    (hbad : Int.tmod vd.w 2 ≠ 1 ∨ Int.tmod vd.h 2 ≠ 1 ∨ vd.w < 3 ∨ vd.h < 3) :
    setVisibleDimension gfx s vd = (s, some GeomError.invalidConfiguration) := by
  unfold setVisibleDimension
  have hne : ¬(vd = s.visibleDimension) := by
    intro he
    rw [he] at hbad
    rcases hbad with h | h | h | h
    · exact h hcur.1
    · exact h hcur.2.1
    · omega
    · omega
  rw [if_neg hne]
  by_cases hodd : Int.tmod vd.w 2 ≠ 1 ∨ Int.tmod vd.h 2 ≠ 1
  · rw [if_pos hodd]
  · rw [if_neg hodd]
    push_neg at hodd
    have hlt : Size.ltSpec vd ⟨3, 3⟩ := by
      unfold Size.ltSpec
      rcases hbad with h | h | h | h
      · exact absurd hodd.1 h
      · exact absurd hodd.2 h
      · exact Or.inl h
      · exact Or.inr h
    rw [if_pos hlt]

/-- Witness for C5: the spec's own example, an even 16×11 request. -/
theorem claim_C5_witness :
    setVisibleDimension gfx0 baseState ⟨16, 11⟩
      = (baseState, some GeomError.invalidConfiguration) :=
  claim_C5_reject gfx0 baseState ⟨16, 11⟩ (by decide) (by decide)

/-- C8: when the light layer recomputes the global ambient light, a camera
floor on the underground side of the sea-floor constant (`z > SEA_FLOOR`)
yields the fixed ambient value color 215 / intensity 0 rather than the world
light; otherwise the light is read from the world; and in either case the
intensity is floored by `minimumAmbientLight × 255`. -/
theorem claim_C8_ambient_light (w : World) (cameraZ : Int) (m : ℚ) :
    (SEA_FLOOR < cameraZ →
      computeAmbientLight w cameraZ m
        = ⟨215, max (ratTruncToInt (m * 255)) 0⟩) ∧
    (cameraZ ≤ SEA_FLOOR →
      computeAmbientLight w cameraZ m
        = ⟨w.light.color, max (ratTruncToInt (m * 255)) w.light.intensity⟩) ∧
    ratTruncToInt (m * 255) ≤ (computeAmbientLight w cameraZ m).intensity := by
  refine ⟨?_, ?_, ?_⟩
  · intro h
    unfold computeAmbientLight
    rw [if_pos h]
  · intro h
    unfold computeAmbientLight
    rw [if_neg (not_lt.mpr h)]
  · unfold computeAmbientLight
    split <;> exact le_max_left _ _

/-- Witness for C8 on the underground side at floor 8. -/
theorem claim_C8_witness :
    SEA_FLOOR < 8 ∧
      computeAmbientLight emptyWorld 8 0
        = ⟨215, max (ratTruncToInt (0 * 255)) 0⟩ :=
  ⟨by decide, (claim_C8_ambient_light emptyWorld 8 0).1 (by decide)⟩

/-- Counterexample to C8 as stated, reading "the 'above sea level' side" with
the spec's own floor convention (§3: smaller floor index = higher in the
world, so floors numerically at or below `SEA_FLOOR` are above ground): at
surface floor 5 the ambient light is read from the world (here color 100,
intensity 200), not set to the fixed value color 215 / intensity 0. -/
theorem claim_C8_counterexample :
    computeAmbientLight emptyWorld 5 0 = ⟨100, 200⟩ ∧
      computeAmbientLight emptyWorld 5 0 ≠ ⟨215, 0⟩ := by
  have hr : ratTruncToInt ((0 : ℚ) * 255) = 0 := by
    unfold ratTruncToInt
    norm_num
  have h1 : computeAmbientLight emptyWorld 5 0 = ⟨100, 200⟩ := by
    unfold computeAmbientLight
    rw [if_neg (by decide : ¬ ((SEA_FLOOR : Int) < 5))]
    rw [hr]
    have hm : max (0 : Int) 200 = 200 := max_eq_right (by norm_num)
    show ({ color := 100, intensity := max 0 200 } : Light) = ⟨100, 200⟩
    rw [hm]
  refine ⟨h1, ?_⟩
  rw [h1]
  decide

/-- C6: against the "west" viewport (whose horizontal extents are the aware
range's right extent plus one), with viewport-edge debugging off and no
dark-light override, a tile without wide/tall things or displacement on the
camera's floor is rejected at camera-relative offset `(-left, 0)` and accepted
at `(-(left - 1), 0)`. -/
theorem claim_C6_west_viewport (s : MapState) (ar : AwareRange)
    (d l lk ln : Bool)
    (hedge : s.drawViewportEdge = false)
    (htop : 1 ≤ ar.top) (hright : 0 ≤ ar.right) :
    canRenderTile s
      ⟨(getCameraPosition s).translated
        (-(initViewPortDirection ar Direction.west).left) 0,
        d, l, false, false, false, lk, ln⟩
      (initViewPortDirection ar Direction.west) none = false ∧
    canRenderTile s
      ⟨(getCameraPosition s).translated
        (-((initViewPortDirection ar Direction.west).left - 1)) 0,
        d, l, false, false, false, lk, ln⟩
      (initViewPortDirection ar Direction.west) none = true := by
  have hvp : initViewPortDirection ar Direction.west
      = ⟨ar.top, ar.right + 1, ar.top, ar.right + 1⟩ := rfl
  rw [hvp]
  simp [canRenderTile, hedge, Position.translated]
  omega

/-- Witness for C6 at the client's default aware range (top 6, right 9). -/
theorem claim_C6_witness :
    canRenderTile baseState
      ⟨(getCameraPosition baseState).translated
        (-(initViewPortDirection ⟨6, 9, 7, 8⟩ Direction.west).left) 0,
        false, false, false, false, false, false, false⟩
      (initViewPortDirection ⟨6, 9, 7, 8⟩ Direction.west) none = false ∧
    canRenderTile baseState
      ⟨(getCameraPosition baseState).translated
        (-((initViewPortDirection ⟨6, 9, 7, 8⟩ Direction.west).left - 1)) 0,
        false, false, false, false, false, false, false⟩
      (initViewPortDirection ⟨6, 9, 7, 8⟩ Direction.west) none = true :=
  claim_C6_west_viewport baseState ⟨6, 9, 7, 8⟩ false false false false
    rfl (by decide) (by decide)

/-- C7: after `setShader(S2, fadeIn = 1, fadeOut = 1/2)` while shader S1 is
active and fully switched: the switch is deferred; across draws the output
opacity falls linearly from 1 to 0 over 1/2 time unit with S1 still active
and no state change; the first draw past the crossing installs S2 (exactly
once — later draws leave the state unchanged), restarts the timer and outputs
opacity 0; opacity then rises linearly from 0 to 1 over 1 time unit and is
clamped at 1 thereafter; a zero fade-out duration switches instantly inside
`setShader`, and a zero fade-in duration outputs full opacity on every draw
after the switch. -/
theorem claim_C7_shader_fade (ns : Option Nat) (ts fi fo t0 : ℚ) :
    (setShader ⟨some 1, ns, true, ts, fi, fo⟩ t0 (some 2) 1 (1/2)
      = ⟨some 1, some 2, false, t0, 1, 1/2⟩) ∧
    (∀ t : ℚ, 0 ≤ t - t0 → t - t0 ≤ 1/2 →
      drawFade ⟨some 1, some 2, false, t0, 1, 1/2⟩ t
        = (⟨some 1, some 2, false, t0, 1, 1/2⟩, 1 - 2 * (t - t0))) ∧
    (∀ t : ℚ, 1/2 < t - t0 →
      drawFade ⟨some 1, some 2, false, t0, 1, 1/2⟩ t
        = (⟨some 2, none, true, t, 1, 1/2⟩, 0)) ∧
    (∀ tswap u : ℚ, 0 ≤ u - tswap → u - tswap ≤ 1 →
      drawFade ⟨some 2, none, true, tswap, 1, 1/2⟩ u
        = (⟨some 2, none, true, tswap, 1, 1/2⟩, u - tswap)) ∧
    (∀ tswap u : ℚ, 1 ≤ u - tswap →
      drawFade ⟨some 2, none, true, tswap, 1, 1/2⟩ u
        = (⟨some 2, none, true, tswap, 1, 1/2⟩, 1)) ∧
    (setShader ⟨some 1, ns, true, ts, fi, fo⟩ t0 (some 2) 1 0
      = ⟨some 2, none, true, t0, 1, 0⟩) ∧
    (∀ tswap u : ℚ,
      drawFade ⟨some 2, none, true, tswap, 0, 1/2⟩ u
        = (⟨some 2, none, true, tswap, 0, 1/2⟩, 1)) := by
  have hdiv : ∀ x : ℚ, x / (1/2 : ℚ) = 2 * x := fun x => by ring
  refine ⟨?_, ?_, ?_, ?_, ?_, ?_, ?_⟩
  · norm_num [setShader]
  · intro t h1 h2
    norm_num [drawFade]
    rw [if_neg (show ¬ (1 < (t - t0) / (1/2 : ℚ)) from by rw [hdiv]; linarith)]
    simp only [Prod.mk.injEq]
    exact ⟨trivial, by ring⟩
  · intro t h
    norm_num [drawFade]
    rw [hdiv]
    linarith
  · intro tswap u h1 h2
    norm_num [drawFade]
    linarith
  · intro tswap u h
    norm_num [drawFade]
    linarith
  · norm_num [setShader]
  · intro tswap u
    norm_num [drawFade]

/-- Witness for C7: a draw a quarter time unit into the fade-out reads
opacity 1/2 with the switch still pending. -/
theorem claim_C7_witness :
    drawFade ⟨some 1, some 2, false, 0, 1, 1/2⟩ (1/4)
      = (⟨some 1, some 2, false, 0, 1, 1/2⟩, 1 - 2 * ((1/4 : ℚ) - 0)) :=
  (claim_C7_shader_fade none 0 0 0 0).2.1 (1/4) (by norm_num) (by norm_num)

/-- The fields written by a rebuild with a valid camera, read off the
definition. -/
theorem update_fields (w : World) (s : MapState)
    (hv : (getCameraPosition s).isValid = true) :
    (updateVisibleTilesCache w s).cachedFirstVisibleFloor
        = calcFirstVisibleFloor w s ∧
      (updateVisibleTilesCache w s).cachedLastVisibleFloor
        = resolvedLastVisibleFloor w s ∧
      (updateVisibleTilesCache w s).floorMin = (rebuildResult w s).floorMin ∧
      (updateVisibleTilesCache w s).floorMax = (rebuildResult w s).floorMax ∧
      (updateVisibleTilesCache w s).cache
        = fillCache (clearSpan s.cache s.floorMin s.floorMax)
            (rebuildResult w s).accepted.reverse := by
  unfold updateVisibleTilesCache
  rw [if_pos hv]
  exact ⟨rfl, rfl, rfl, rfl, rfl⟩

/-- With an invalid camera the rebuild only lowers the must-update flag. -/
theorem update_invalid (w : World) (t : MapState)
    (hv : ¬ ((getCameraPosition t).isValid = true)) :
    updateVisibleTilesCache w t
      = { t with mustUpdateVisibleTilesCache := false } := by
  unfold updateVisibleTilesCache
  rw [if_neg hv]

/-- C9: the visible-tile cache rebuild is idempotent — with no intervening
world mutation, camera change or configuration change, a second
`updateVisibleTilesCache` leaves the per-floor ordered tile lists, the
`floorMin`/`floorMax` span and the cached floor window exactly as the first
rebuild produced them.  The hypothesis is the structural cache invariant
(nonempty floors lie inside the recorded span), which holds of the initial
state and of every state a rebuild produces. -/
theorem claim_C9_idempotent (w : World) (s : MapState) (hInv : CacheInv s) :
    (updateVisibleTilesCache w (updateVisibleTilesCache w s)).cache
        = (updateVisibleTilesCache w s).cache ∧
      (updateVisibleTilesCache w (updateVisibleTilesCache w s)).floorMin
        = (updateVisibleTilesCache w s).floorMin ∧
      (updateVisibleTilesCache w (updateVisibleTilesCache w s)).floorMax
        = (updateVisibleTilesCache w s).floorMax ∧
      (updateVisibleTilesCache w
          (updateVisibleTilesCache w s)).cachedFirstVisibleFloor
        = (updateVisibleTilesCache w s).cachedFirstVisibleFloor ∧
      (updateVisibleTilesCache w
          (updateVisibleTilesCache w s)).cachedLastVisibleFloor
        = (updateVisibleTilesCache w s).cachedLastVisibleFloor := by
  by_cases hv : (getCameraPosition s).isValid = true
  · have hv1 : (getCameraPosition (updateVisibleTilesCache w s)).isValid
        = true := by
      unfold updateVisibleTilesCache
      rw [if_pos hv]
      exact hv
    have e1 : calcFirstVisibleFloor w (updateVisibleTilesCache w s)
        = calcFirstVisibleFloor w s := by
      unfold updateVisibleTilesCache
      rw [if_pos hv]
      rfl
    have e2 : resolvedLastVisibleFloor w (updateVisibleTilesCache w s)
        = resolvedLastVisibleFloor w s := by
      unfold updateVisibleTilesCache
      rw [if_pos hv]
      rfl
    have e3 : rebuildResult w (updateVisibleTilesCache w s)
        = rebuildResult w s := by
      unfold updateVisibleTilesCache
      rw [if_pos hv]
      rfl
    obtain ⟨f1, f2, f3, f4, f5⟩ := update_fields w s hv
    obtain ⟨g1, g2, g3, g4, g5⟩ :=
      update_fields w (updateVisibleTilesCache w s) hv1
    have hInv1 : CacheInv (updateVisibleTilesCache w s) :=
      update_cacheInv w s hv hInv
    refine ⟨?_, ?_, ?_, ?_, ?_⟩
    · have hclear0 := clearSpan_empty s.cache s.floorMin s.floorMax hInv
      unfold CacheInv at hInv1
      rw [f5, f3, f4, hclear0] at hInv1
      rw [g5, e3, f5, f3, f4, hclear0]
      rw [clearSpan_empty _ _ _ hInv1]
    · rw [g3, e3, f3]
    · rw [g4, e3, f4]
    · rw [g1, e1, f1]
    · rw [g2, e2, f2]
  · have h1 := update_invalid w s hv
    have hv2 : ¬ ((getCameraPosition (updateVisibleTilesCache w s)).isValid
        = true) := by
      rw [h1]
      exact hv
    rw [update_invalid w (updateVisibleTilesCache w s) hv2]
    exact ⟨rfl, rfl, rfl, rfl, rfl⟩

/-- Witness for C9 from the constructor state (empty cache, so the cache
invariant holds trivially). -/
theorem claim_C9_witness :
    (updateVisibleTilesCache emptyWorld
        (updateVisibleTilesCache emptyWorld baseState)).cache
        = (updateVisibleTilesCache emptyWorld baseState).cache ∧
      (updateVisibleTilesCache emptyWorld
          (updateVisibleTilesCache emptyWorld baseState)).floorMin
        = (updateVisibleTilesCache emptyWorld baseState).floorMin ∧
      (updateVisibleTilesCache emptyWorld
          (updateVisibleTilesCache emptyWorld baseState)).floorMax
        = (updateVisibleTilesCache emptyWorld baseState).floorMax ∧
      (updateVisibleTilesCache emptyWorld
          (updateVisibleTilesCache emptyWorld baseState)).cachedFirstVisibleFloor
        = (updateVisibleTilesCache emptyWorld baseState).cachedFirstVisibleFloor ∧
      (updateVisibleTilesCache emptyWorld
          (updateVisibleTilesCache emptyWorld baseState)).cachedLastVisibleFloor
        = (updateVisibleTilesCache emptyWorld baseState).cachedLastVisibleFloor :=
  claim_C9_idempotent emptyWorld baseState (fun _ h => absurd rfl h)

/-- C1 (amended): with the view mode at or beyond `HUGE_VIEW`, for any world
— in particular one where every candidate cell holds a drawable tile — a
rebuild stores at most `7 × 32 × 32 + 1` tiles across all per-floor lists
(the cap check `processedTiles > MAX_TILE_DRAWS` runs before each acceptance,
so one tile beyond `MAX_TILE_DRAWS` can be accepted before the check next
fires — see the counterexample); and once the running count exceeds the
ceiling the traversal stops immediately: the loop body only raises the `stop`
flag, and a raised flag halts the floor loop (hence all diagonal loops)
without further work. -/
theorem claim_C1_draw_count_cap (w : World) (s : MapState)
    (hv : (getCameraPosition s).isValid = true)
    (hInv : CacheInv s)
    (hH : HUGE_VIEW ≤ s.viewMode)
    (hAll : ∀ p : Position, ∃ t, w.getTile p = some t ∧ t.isDrawable = true) :
    totalVisibleTiles (updateVisibleTilesCache w s) ≤ MAX_TILE_DRAWS + 1 ∧
      (∀ (n : Nat) (iz : Int) (acc : FillAcc), acc.stop = true →
        floorLoop (mkFillCtx w s (calcFirstVisibleFloor w s)) n iz acc = acc) ∧
      (∀ (iz : Int) (iy ix : Nat) (acc : FillAcc),
        MAX_TILE_DRAWS < acc.count →
        innerBody (mkFillCtx w s (calcFirstVisibleFloor w s)) iz iy ix acc
          = { acc with stop := true }) := by
  refine ⟨?_, ?_, ?_⟩
  · rw [totalVisibleTiles_update w s hv hInv]
    exact rebuildResult_cap w s hH
  · intro n iz acc hstop
    cases n with
    | zero => rw [floorLoop_zero]
    | succ n =>
      rw [floorLoop_succ, if_neg (by simp [hstop])]
  · intro iz iy ix acc hcount
    simp only [innerBody]
    rw [if_pos (show MAX_TILE_DRAWS < acc.count ∧
      HUGE_VIEW ≤ (mkFillCtx w s (calcFirstVisibleFloor w s)).viewMode
      from ⟨hcount, hH⟩)]

/-- Witness for C1's amended cap on a huge-view all-drawable world. -/
theorem claim_C1_witness :
    totalVisibleTiles (updateVisibleTilesCache allTileWorld hugeState)
      ≤ MAX_TILE_DRAWS + 1 :=
  (claim_C1_draw_count_cap allTileWorld hugeState (by decide)
    (fun _ h => absurd rfl h) (by decide)
    (fun p => ⟨⟨p, true, false, false, false, false, false, false⟩, rfl, rfl⟩)).1

set_option maxRecDepth 100000 in
set_option maxHeartbeats 4000000 in
/-- Counterexample to C1's stated ceiling: in a huge view over a world where
every cell holds a drawable, uncovered tile, the rebuilt cache holds exactly
`7 × 32 × 32 + 1` tiles — one more than the claimed `7 × 32 × 32`, because
the cap check runs before each acceptance and only stops the loops on the
iteration after the count first exceeds `MAX_TILE_DRAWS`. -/
theorem claim_C1_counterexample :
    totalVisibleTiles (updateVisibleTilesCache allTileWorld hugeState)
      = MAX_TILE_DRAWS + 1 := by
  rw [totalVisibleTiles_update allTileWorld hugeState (by decide)
    (fun _ h => absurd rfl h)]
  decide

end Otc
